import Mathlib

/-!
Shallow embedding of the clustbench aggregation engine
(`src/aggregate_scores.py`) and proofs about its behaviour.

Conventions of the embedding:
* Python floats are modelled as rationals (ℚ); a CSV cell is represented by
  the outcome of Python's `float()` on its raw string: `Cell.num q` when the
  string parses, `Cell.str s` when it does not.
* Python dicts keyed by strings are modelled as association lists together
  with an insert-or-overwrite operation (`dictInsert`) that mirrors dict
  assignment (insertion order kept, value updated in place).
* Filesystem access is modelled by passing the relevant parsed artefacts
  (directory-level names and sidecar contents, label-file contents, score-file
  contents) as explicit inputs.
-/

namespace Clustbench

/-- Outcome of Python `float()` on a raw CSV cell: a parsed rational, or the
raw string when parsing fails. -/
inductive Cell where
  | num (q : ℚ)
  | str (s : String)
deriving DecidableEq, Repr

/-- Embeds Python `s.strip('"')`: remove every leading and trailing `"`. -/
def stripQuotes (s : String) : String :=
  String.mk (((s.toList.dropWhile fun c => c = '"').reverse.dropWhile
    fun c => c = '"').reverse)

/-- The fixed anomaly tolerance `1e-3` of `process_scores_file`. -/
def kTol : ℚ := 1 / 1000

/-- Association-list lookup with propositional key equality (first match wins),
modelling Python dict lookup. -/
def alookup (name : String) : List (String × Cell) → Option Cell
  | [] => none
  | e :: rest => if e.1 = name then some e.2 else alookup name rest

/-- The cell of the first entry whose quote-stripped column name is `name`
(the "first-seen" value of that name). -/
def firstCellFor (name : String) : List (String × Cell) → Option Cell
  | [] => none
  | e :: rest => if stripQuotes e.1 = name then some e.2 else firstCellFor name rest

/-- One iteration of the duplicate-k detection loop of `process_scores_file`
(lines 634-648).  State: (`k_values` first-seen dict, anomaly flag).  A numeric
cell whose name was first seen with a numeric value is compared against that
first value; comparing a numeric cell against a first-seen raw string raises
`TypeError` in Python, which the surrounding `except` swallows (the name is
already present, so nothing is stored); non-numeric cells are stored only when
the name is new. -/
def detectStep (st : List (String × Cell) × Bool) (e : String × Cell) :
    List (String × Cell) × Bool :=
  match e.2, alookup (stripQuotes e.1) st.1 with
  | Cell.num v, some (Cell.num f) => (st.1, st.2 || decide (|f - v| > kTol))
  | Cell.num _, some (Cell.str _) => st
  | Cell.num v, none => (st.1 ++ [(stripQuotes e.1, Cell.num v)], st.2)
  | Cell.str _, some _ => st
  | Cell.str s, none => (st.1 ++ [(stripQuotes e.1, Cell.str s)], st.2)

/-- The duplicate-k anomaly flag computed by `process_scores_file`.  The loop
`for i, k in enumerate(header): if i < len(data)` visits exactly the pairs of
`header.zip data`. -/
def detect_duplicate_k (header : List String) (data : List Cell) : Bool :=
  (List.foldl detectStep ([], false) (header.zip data)).2

/-- Python dict assignment `d[key] = v` on an association list: overwrite in
place when the key is present, append otherwise. -/
def dictInsert (m : List (String × Cell)) (key : String) (v : Cell) :
    List (String × Cell) :=
  if (alookup key m).isSome then
    m.map fun p => if p.1 = key then (key, v) else p
  else m ++ [(key, v)]

/-- The k-column population loop of `process_scores_file` (lines 669-676):
each header/data pair is written into the record dict under its quote-stripped
name, so a later duplicate overwrites an earlier one. -/
def addKColumns (header : List String) (data : List Cell) : List (String × Cell) :=
  List.foldl (fun m e => dictInsert m (stripQuotes e.1) e.2) [] (header.zip data)

/-- The cell of the last header/data pair whose quote-stripped name is `name`. -/
def lastDupValue (name : String) : List (String × Cell) → Option Cell
  | [] => none
  | e :: rest =>
      match lastDupValue name rest with
      | some v => some v
      | none => if stripQuotes e.1 = name then some e.2 else none

/-- The `perf.json` facts read by `extract_performance_data`; a missing or
unreadable file yields all-`none`. -/
structure PerfData where
  runtime : Option ℚ
  threads : Option Int
  disk_read : Option Int
  disk_write : Option Int
  avg_load : Option ℚ
  peak_rss : Option Int
deriving DecidableEq, Repr

/-- All-`none` performance facts. -/
def PerfData.empty : PerfData := ⟨none, none, none, none, none, none⟩

/-- The inputs `process_scores_file` obtains for one score file before reading
its content: the identity fields resolved from the path and sidecars, the
ground truth, the performance facts, and the parsed content of the gzip file.
`content = none` models content that is empty or whitespace-only, or on which
the CSV reader yields no row at all (the three code branches at lines 560, 589
and 610 of `aggregate_scores.py` build identical records); otherwise the first
row is the header and the remaining rows are data rows with each cell given by
its `float()` outcome. -/
structure ScoreFileInput where
  dataset_generator : String
  dataset_name : String
  method : String
  seed : Option Int
  metric : String
  true_k : Option Nat
  has_noise : Option Bool
  execution_time_seconds : Option ℚ
  perf : PerfData
  metric_perf_runtime : Option ℚ
  content : Option (List String × List (List Cell))
deriving DecidableEq, Repr

/-- One row of the method-level table (`method_result` in the code).
`source_dir` holds the basename of the owning run directory. -/
structure MethodResult where
  source_dir : String
  backend : Option String
  run_timestamp : Option String
  dataset_generator : String
  dataset_name : String
  true_k : Option Nat
  has_noise : Option Bool
  method : String
  seed : Option Int
  execution_time_seconds : Option ℚ
  runtime : Option ℚ
  threads : Option Int
  disk_read : Option Int
  disk_write : Option Int
  avg_load : Option ℚ
  peak_rss : Option Int
deriving DecidableEq, Repr

/-- One row of the metric-level table (`metric_result` in the code).  The
`k=...` columns are kept in a dedicated association list `kColumns`; in the
Python dict they share a namespace with the fifteen fixed meta keys, but score
headers are `k=<int>`-shaped and never collide with a meta key (theorems whose
statement would be affected by a collision carry an explicit
`headerAvoidsMetaKeys` hypothesis). -/
structure MetricRecord where
  source_dir : String
  backend : Option String
  run_timestamp : Option String
  dataset_generator : String
  dataset_name : String
  true_k : Option Nat
  has_noise : Option Bool
  method : String
  seed : Option Int
  metric : String
  score : Option Cell
  runtime : Option ℚ
  duplicate_k_anomaly : Bool
  empty_file : Bool
  missing_true_k_score : Bool
  kColumns : List (String × Cell)
deriving DecidableEq, Repr

/-- The fifteen fixed meta keys of a metric result dict. -/
def metricMetaKeys : List String :=
  ["source_dir", "backend", "run_timestamp", "dataset_generator", "dataset_name",
   "true_k", "has_noise", "method", "seed", "metric", "score", "runtime",
   "duplicate_k_anomaly", "empty_file", "missing_true_k_score"]

/-- No quote-stripped header name collides with a fixed meta key of the
metric result dict. -/
def headerAvoidsMetaKeys (header : List String) : Bool :=
  header.all fun s => decide (stripQuotes s ∉ metricMetaKeys)

/-- The method-level record built by `process_scores_file` (lines 542-555);
it is assembled before the score file content is read and hence does not
depend on it. -/
def methodResultOf (source_dir : String) (backend run_timestamp : Option String)
    (f : ScoreFileInput) : MethodResult :=
  { source_dir := source_dir, backend := backend, run_timestamp := run_timestamp,
    dataset_generator := f.dataset_generator, dataset_name := f.dataset_name,
    true_k := f.true_k, has_noise := f.has_noise, method := f.method,
    seed := f.seed, execution_time_seconds := f.execution_time_seconds,
    runtime := f.perf.runtime, threads := f.perf.threads,
    disk_read := f.perf.disk_read, disk_write := f.perf.disk_write,
    avg_load := f.perf.avg_load, peak_rss := f.perf.peak_rss }

/-- The metric record built for empty or row-less content (lines 562-628). -/
def emptyMetricRecord (source_dir : String) (backend run_timestamp : Option String)
    (f : ScoreFileInput) : MetricRecord :=
  { source_dir := source_dir, backend := backend, run_timestamp := run_timestamp,
    dataset_generator := f.dataset_generator, dataset_name := f.dataset_name,
    true_k := f.true_k, has_noise := f.has_noise, method := f.method,
    seed := f.seed, metric := f.metric, score := none,
    runtime := f.metric_perf_runtime, duplicate_k_anomaly := false,
    empty_file := true, missing_true_k_score := false, kColumns := [] }

/-- The metric-level record built by `process_scores_file` (lines 557-687):
only the first data row is used; the duplicate-k flag comes from the detection
loop; the k columns are written with dict overwrite semantics; the derived
`score` is the dict value under `k=<true_k>` when `true_k` is known and the
column exists, and `missing_true_k_score` is set when `true_k` is known but
the column is absent. -/
def metricRecordOf (source_dir : String) (backend run_timestamp : Option String)
    (f : ScoreFileInput) : MetricRecord :=
  match f.content with
  | none => emptyMetricRecord source_dir backend run_timestamp f
  | some (_, []) => emptyMetricRecord source_dir backend run_timestamp f
  | some (header, data :: _) =>
      let cols := addKColumns header data
      let sm : Option Cell × Bool :=
        match f.true_k with
        | some n =>
            match alookup ("k=" ++ toString n) cols with
            | some v => (some v, false)
            | none => (none, true)
        | none => (none, false)
      { source_dir := source_dir, backend := backend, run_timestamp := run_timestamp,
        dataset_generator := f.dataset_generator, dataset_name := f.dataset_name,
        true_k := f.true_k, has_noise := f.has_noise, method := f.method,
        seed := f.seed, metric := f.metric, score := sm.1,
        runtime := f.metric_perf_runtime,
        duplicate_k_anomaly := detect_duplicate_k header data,
        empty_file := false, missing_true_k_score := sm.2, kColumns := cols }

/-- `process_scores_file`: produces the method-level and the metric-level
record for one score file.  (The exception fallback returning `(None, None)`
for files that raise is not modelled; the claims concern files that produce
records.) -/
def process_scores_file (source_dir : String) (backend run_timestamp : Option String)
    (f : ScoreFileInput) : MethodResult × MetricRecord :=
  (methodResultOf source_dir backend run_timestamp f,
   metricRecordOf source_dir backend run_timestamp f)

/-- Replace the parsed content of a score file input. -/
def withContent (f : ScoreFileInput)
    (c : Option (List String × List (List Cell))) : ScoreFileInput :=
  { f with content := c }

/-- Boolean string prefix test (Python `str.startswith`). -/
def strStarts (pre s : String) : Bool :=
  pre.toList.isPrefixOf s.toList

/-- Embeds Python `name.replace('-', '_')` (a single-character pattern, hence
a character-wise replacement). -/
def replaceDashes (s : String) : String :=
  String.mk (s.toList.map fun c => if c = '-' then '_' else c)

/-- `normalize_method_name` of the source: hyphens become underscores except
for names carrying the reserved `linkage-` prefix, kept verbatim. -/
def normalize_method_name (name : String) : String :=
  if strStarts "linkage-" name then name else replaceDashes name

/-- Decimal digits to the number Python `int()` yields on them. -/
def digitsToNat (ds : List Char) : Nat :=
  ds.foldl (fun n c => 10 * n + (c.toNat - '0'.toNat)) 0

/-- Match `_seed-` followed by at least one digit at the head of `cs`,
returning the maximal digit run (the greedy `(\d+)` group). -/
def seedDigits (cs : List Char) : Option (List Char) :=
  if "_seed-".toList.isPrefixOf cs then
    let ds := (cs.drop 6).takeWhile Char.isDigit
    if ds = [] then none else some ds
  else none

/-- The lazy group `(.+?)` before `_seed-(\d+)`: the shortest non-empty chunk
after which `_seed-<digit>` follows, paired with the digit run. -/
def findSeedSplit : List Char → Option (List Char × List Char)
  | [] => none
  | c :: rest =>
      match seedDigits rest with
      | some ds => some ([c], ds)
      | none =>
          match findSeedSplit rest with
          | some (m, ds) => some (c :: m, ds)
          | none => none

/-- `re.search(tok + r'(.+?)_seed-(\d+)', s)`: scan for the leftmost position
where the literal token is followed by a lazy non-empty group and a
`_seed-<digits>` suffix; later positions are tried when the suffix never
materialises at an earlier one. -/
def searchTokenSeed (tok : List Char) : List Char → Option (String × Nat)
  | [] => none
  | l@(_ :: rest) =>
      if tok.isPrefixOf l then
        match findSeedSplit (l.drop tok.length) with
        | some (m, ds) => some (String.mk m, digitsToNat ds)
        | none => searchTokenSeed tok rest
      else searchTokenSeed tok rest

/-- The clustering-library names recognised for the two-level linkage layout. -/
def libNames : List String := ["agglomerative", "fastcluster", "sklearn"]

/-- The directory-name checks of one loop iteration of `extract_method_info`
(lines 182-210), in source order: the `method-<name>_seed-<digits>` search,
then the plain `method-` prefix, then the `linkage-` compound case that also
consults the parent directory's name. -/
def methodFromDirName (name parentName : String) : Option (String × Option Int) :=
  match searchTokenSeed "method-".toList name.toList with
  | some (m, sd) => some (normalize_method_name m, some (sd : Int))
  | none =>
      if strStarts "method-" name then
        some (normalize_method_name (String.mk (name.toList.drop 7)), none)
      else if strStarts "linkage-" name && decide (parentName ∈ libNames) then
        match searchTokenSeed "linkage-".toList name.toList with
        | some (lk, sd) =>
            some (parentName ++ "_" ++ "linkage-" ++ lk, some (sd : Int))
        | none => some (parentName ++ "_" ++ name, none)
      else none

/-- Contents of a `parameters.json` sidecar as `extract_method_info` reads it:
`method` is `params.get('method', '')` (empty when absent) and `seed` models
an integer-valued `seed` key.  An unparsable sidecar file is represented as an
absent one (both fall through to the directory-name checks). -/
structure SidecarParams where
  method : String
  seed : Option Int
deriving DecidableEq, Repr

/-- One ancestor directory of a score file: its basename and its optional
sidecar descriptor. -/
structure DirLevel where
  name : String
  params : Option SidecarParams
deriving DecidableEq, Repr

/-- Basename of the parent of the innermost listed level (empty at the
filesystem root). -/
def parentNameOf (rest : List DirLevel) : String :=
  match rest with
  | [] => ""
  | p :: _ => p.name

/-- `extract_method_info` (lines 151-214): ascend from the score file's
directory through at most `fuel` levels (the source uses 5); at each level the
sidecar descriptor is consulted first (a loaded sidecar with a non-empty
`method` wins outright), then the directory-name checks; otherwise ascend.
The level list holds the ancestor chain innermost-first, excluding the root
(the source breaks out of the loop upon reaching the root without examining
it). -/
def extract_method_info : Nat → List DirLevel → String × Option Int
  | 0, _ => ("", none)
  | _ + 1, [] => ("", none)
  | fuel + 1, lvl :: rest =>
      match lvl.params with
      | some p =>
          if p.method ≠ "" then (normalize_method_name p.method, p.seed)
          else
            match methodFromDirName lvl.name (parentNameOf rest) with
            | some r => r
            | none => extract_method_info fuel rest
      | none =>
          match methodFromDirName lvl.name (parentNameOf rest) with
          | some r => r
          | none => extract_method_info fuel rest

/-- The loop depth limit of `extract_method_info` (`for _ in range(5)`). -/
def methodSearchDepth : Nat := 5

/-- `(true_k, has_noise)` from one parsed label file, as computed at lines
460-471: distinct labels, noise iff `0` occurs, `true_k` the count of distinct
non-zero labels; the pair is only produced when that count is positive. -/
def label_file_result (labels : List Int) : Option (Nat × Bool) :=
  let uniq := labels.dedup
  let has_noise : Bool := decide ((0 : Int) ∈ uniq)
  let nonzero := uniq.filter fun x => decide (x ≠ 0)
  if nonzero.length > 0 then some (nonzero.length, has_noise) else none

/-- The label-file loop of `extract_dataset_true_k_and_noise` (lines 457-476):
each file is either unparsable (`none`, skipped) or a list of integer labels;
the first file yielding `true_k > 0` wins; otherwise `(None, None)`. -/
def extract_true_k_noise : List (Option (List Int)) → Option Nat × Option Bool
  | [] => (none, none)
  | none :: rest => extract_true_k_noise rest
  | some labels :: rest =>
      match label_file_result labels with
      | some (k, n) => (some k, some n)
      | none => extract_true_k_noise rest

/-- `extract_dataset_true_k_and_noise`: the outer `none` models the absence of
any ancestor dataset directory (bounded ascent failed), in which case the
resolver returns `(None, None)` without looking at label files. -/
def extract_dataset_true_k_and_noise :
    Option (List (Option (List Int))) → Option Nat × Option Bool
  | none => (none, none)
  | some files => extract_true_k_noise files

/-- `extract_backend_timestamp` (lines 484-493): anchored match of
`out[_-]([^_-]+)[_-](\d+)` against the run directory basename; trailing
characters are ignored, and failure yields `(None, None)`. -/
def extract_backend_timestamp (basename : String) : Option String × Option String :=
  match basename.toList with
  | 'o' :: 'u' :: 't' :: c :: rest =>
      if c = '_' ∨ c = '-' then
        let tok := rest.takeWhile fun ch => ch ≠ '_' ∧ ch ≠ '-'
        let rest2 := rest.dropWhile fun ch => ch ≠ '_' ∧ ch ≠ '-'
        match tok, rest2 with
        | [], _ => (none, none)
        | _, [] => (none, none)
        | _, _ :: rest3 =>
            let ds := rest3.takeWhile Char.isDigit
            if ds = [] then (none, none)
            else (some (String.mk tok), some (String.mk ds))
      else (none, none)
  | _ => (none, none)

/-- A run directory as `process_run` sees it: its basename and the score files
discovered beneath it. -/
structure RunDirInput where
  name : String
  files : List ScoreFileInput
deriving DecidableEq, Repr

/-- Python `set.add` on an insertion-ordered list: `backends_found.add(b)`. -/
def insertOnce (xs : List String) (x : String) : List String :=
  if x ∈ xs then xs else xs ++ [x]

/-- The distinct values of a list in first-seen order (a Python set built by
successive `add` calls). -/
def distinctVals (l : List String) : List String :=
  l.foldl insertOnce []

/-- `list(found)[0] if len(found) == 1 else None` (lines 120-121). -/
def collapseSingleton : List String → Option String
  | [x] => some x
  | _ => none

/-- `process_run` over the run directories discovered under one root (lines
80-124): every score file of a run directory is processed with that run's
backend and timestamp and tagged with the run directory's basename as
`source_dir`; the batch backend (resp. timestamp) collapses to the single
distinct non-`None` value found, else `None`.  (Per-file exception recovery
and progress printing are not modelled.) -/
def process_run (runDirs : List RunDirInput) :
    List MethodResult × List MetricRecord × Option String × Option String :=
  ((runDirs.map fun rd => rd.files.map fun f =>
      (process_scores_file rd.name (extract_backend_timestamp rd.name).1
        (extract_backend_timestamp rd.name).2 f).1).flatten,
   (runDirs.map fun rd => rd.files.map fun f =>
      (process_scores_file rd.name (extract_backend_timestamp rd.name).1
        (extract_backend_timestamp rd.name).2 f).2).flatten,
   collapseSingleton (distinctVals
     (runDirs.filterMap fun rd => (extract_backend_timestamp rd.name).1)),
   collapseSingleton (distinctVals
     (runDirs.filterMap fun rd => (extract_backend_timestamp rd.name).2)))

/-- The deduplication key of a method result (line 790): the identity tuple
together with the run metadata. -/
structure MethodDedupKey where
  source_dir : String
  backend : Option String
  run_timestamp : Option String
  dataset_generator : String
  dataset_name : String
  method : String
  seed : Option Int
deriving DecidableEq, Repr

/-- The key tuple formed for a method result at line 790. -/
def methodKey (m : MethodResult) : MethodDedupKey :=
  ⟨m.source_dir, m.backend, m.run_timestamp, m.dataset_generator,
   m.dataset_name, m.method, m.seed⟩

/-- The duplicate removal of `main` (lines 788-793): dict insertion keyed by
`methodKey`, first-seen record kept, insertion order preserved. -/
def dedup_method_results (l : List MethodResult) : List MethodResult :=
  l.foldl
    (fun acc r =>
      if acc.any (fun r' => decide (methodKey r' = methodKey r)) then acc
      else acc ++ [r]) []

/-- The record-stream assembly of `main`: method results are deduplicated,
metric results are emitted as collected. -/
def aggregate_results (methods : List MethodResult) (metrics : List MetricRecord) :
    List MethodResult × List MetricRecord :=
  (dedup_method_results methods, metrics)

/-- First-seen cell for `name`: an entry of the dict `m` when present, else
the first occurrence within the prefix `pre`.  This describes the contents of
the `k_values` dict after the detection loop has consumed `pre` starting from
`m`. -/
def lookupOr (m pre : List (String × Cell)) (name : String) : Option Cell :=
  match alookup name m with
  | some c => some c
  | none => firstCellFor name pre

/-- Declarative reading of the duplicate-k anomaly, relative to a pre-seeded
first-seen dict `m`: some later entry `e` is numeric and differs by more than
the tolerance from the first-seen value of its quote-stripped name, that
first-seen value being numeric. -/
def SpecFrom (m : List (String × Cell)) (l : List (String × Cell)) : Prop :=
  ∃ l₁ e l₂, l = l₁ ++ e :: l₂ ∧ ∃ f g : ℚ,
    lookupOr m l₁ (stripQuotes e.1) = some (Cell.num f) ∧
    e.2 = Cell.num g ∧ |f - g| > kTol

/-- Declarative duplicate-k anomaly over the header/data pairs of a score
file: the pairs split as `l₁ ++ e :: l₂` where the quote-stripped name of `e`
already occurred in `l₁` with a numeric first-seen value `f`, `e` itself is
numeric with value `g`, and `|f - g|` exceeds the `1e-3` tolerance. -/
def DupAnomalySpec (l : List (String × Cell)) : Prop :=
  ∃ l₁ e l₂, l = l₁ ++ e :: l₂ ∧ ∃ f g : ℚ,
    firstCellFor (stripQuotes e.1) l₁ = some (Cell.num f) ∧
    e.2 = Cell.num g ∧ |f - g| > kTol

/-- A score-file input with fixed identity fields, used for the concrete
evaluations in witnesses and counterexamples. -/
def mkScoreInput (true_k : Option Nat)
    (content : Option (List String × List (List Cell))) : ScoreFileInput :=
  { dataset_generator := "fcps", dataset_name := "atom", method := "kmeans",
    seed := none, metric := "ari", true_k := true_k, has_noise := some false,
    execution_time_seconds := none, perf := PerfData.empty,
    metric_perf_runtime := none, content := content }

/-! ### Association-list and first-seen lemmas -/

theorem alookup_append (n : String) (m₁ m₂ : List (String × Cell)) :
    alookup n (m₁ ++ m₂) =
      match alookup n m₁ with
      | some c => some c
      | none => alookup n m₂ := by
  induction m₁ with
  | nil => simp [alookup]
  | cons e rest ih =>
      by_cases h : e.1 = n
      · simp [alookup, h]
      · simp [alookup, h, ih]

theorem specFrom_nil (m : List (String × Cell)) : ¬ SpecFrom m [] := by
  rintro ⟨l₁, e, l₂, heq, -⟩
  exact List.not_mem_nil e (heq ▸ List.mem_append_right l₁ (List.mem_cons_self e l₂))

theorem lookupOr_nil_pre (m : List (String × Cell)) (n : String) :
    lookupOr m [] n = alookup n m := by
  cases h : alookup n m <;> simp [lookupOr, h, firstCellFor]

theorem lookupOr_cons_found {m : List (String × Cell)} {e : String × Cell}
    {c : Cell} (hc : alookup (stripQuotes e.1) m = some c)
    (pre : List (String × Cell)) (n : String) :
    lookupOr m (e :: pre) n = lookupOr m pre n := by
  cases h : alookup n m with
  | some _ => simp [lookupOr, h]
  | none =>
      have hne : stripQuotes e.1 ≠ n := by
        intro he
        rw [he, h] at hc
        cases hc
      simp [lookupOr, h, firstCellFor, hne]

theorem lookupOr_cons_notfound {m : List (String × Cell)} {e : String × Cell}
    (hc : alookup (stripQuotes e.1) m = none)
    (pre : List (String × Cell)) (n : String) :
    lookupOr m (e :: pre) n = lookupOr (m ++ [(stripQuotes e.1, e.2)]) pre n := by
  cases h : alookup n m with
  | some c => simp [lookupOr, h, alookup_append]
  | none =>
      by_cases hne : stripQuotes e.1 = n
      · subst hne
        simp [lookupOr, h, alookup_append, hc, firstCellFor, alookup]
      · simp [lookupOr, h, alookup_append, firstCellFor, hne, alookup]

theorem specFrom_cons_found {m : List (String × Cell)} {e : String × Cell}
    {c : Cell} (hc : alookup (stripQuotes e.1) m = some c)
    (rest : List (String × Cell)) :
    SpecFrom m (e :: rest) ↔
      (∃ f g : ℚ, c = Cell.num f ∧ e.2 = Cell.num g ∧ |f - g| > kTol)
        ∨ SpecFrom m rest := by
  constructor
  · rintro ⟨l₁, e', l₂, heq, f, g, h1, h2, h3⟩
    cases l₁ with
    | nil =>
        simp only [List.nil_append, List.cons.injEq] at heq
        obtain ⟨he', hl₂⟩ := heq
        subst he'
        rw [lookupOr_nil_pre, hc] at h1
        exact Or.inl ⟨f, g, Option.some.inj h1, h2, h3⟩
    | cons a l₁' =>
        simp only [List.cons_append, List.cons.injEq] at heq
        obtain ⟨ha, hrest⟩ := heq
        subst ha
        rw [lookupOr_cons_found hc] at h1
        exact Or.inr ⟨l₁', e', l₂, hrest, f, g, h1, h2, h3⟩
  · rintro (⟨f, g, h1, h2, h3⟩ | ⟨l₁, e', l₂, heq, f, g, h1, h2, h3⟩)
    · refine ⟨[], e, rest, rfl, f, g, ?_, h2, h3⟩
      rw [lookupOr_nil_pre, hc, h1]
    · refine ⟨e :: l₁, e', l₂, by rw [heq]; rfl, f, g, ?_, h2, h3⟩
      rw [lookupOr_cons_found hc]
      exact h1

theorem specFrom_cons_notfound {m : List (String × Cell)} {e : String × Cell}
    (hc : alookup (stripQuotes e.1) m = none) (rest : List (String × Cell)) :
    SpecFrom m (e :: rest) ↔ SpecFrom (m ++ [(stripQuotes e.1, e.2)]) rest := by
  constructor
  · rintro ⟨l₁, e', l₂, heq, f, g, h1, h2, h3⟩
    cases l₁ with
    | nil =>
        simp only [List.nil_append, List.cons.injEq] at heq
        obtain ⟨he', _⟩ := heq
        subst he'
        rw [lookupOr_nil_pre, hc] at h1
        cases h1
    | cons a l₁' =>
        simp only [List.cons_append, List.cons.injEq] at heq
        obtain ⟨ha, hrest⟩ := heq
        subst ha
        rw [lookupOr_cons_notfound hc] at h1
        exact ⟨l₁', e', l₂, hrest, f, g, h1, h2, h3⟩
  · rintro ⟨l₁, e', l₂, heq, f, g, h1, h2, h3⟩
    refine ⟨e :: l₁, e', l₂, by rw [heq]; rfl, f, g, ?_, h2, h3⟩
    rw [lookupOr_cons_notfound hc]
    exact h1

/-! ### Characterisation of the duplicate-k detection loop -/

theorem detect_foldl_iff (l : List (String × Cell)) :
    ∀ (m : List (String × Cell)) (b : Bool),
      (List.foldl detectStep (m, b) l).2 = true ↔ (b = true ∨ SpecFrom m l) := by
  induction l with
  | nil =>
      intro m b
      simp [specFrom_nil m]
  | cons e rest ih =>
      intro m b
      rw [List.foldl_cons]
      rcases he : e.2 with v | s
      · rcases hal : alookup (stripQuotes e.1) m with _ | c
        · have hstep : detectStep (m, b) e = (m ++ [(stripQuotes e.1, Cell.num v)], b) := by
            simp [detectStep, he, hal]
          rw [hstep, ih, specFrom_cons_notfound hal, he]
        · cases c with
          | num f =>
              have hstep : detectStep (m, b) e = (m, b || decide (|f - v| > kTol)) := by
                simp [detectStep, he, hal]
              rw [hstep, ih, specFrom_cons_found hal]
              simp only [Bool.or_eq_true, decide_eq_true_eq, he, Cell.num.injEq]
              constructor
              · rintro ((hb | hgap) | hs)
                · exact Or.inl hb
                · exact Or.inr (Or.inl ⟨f, v, rfl, rfl, hgap⟩)
                · exact Or.inr (Or.inr hs)
              · rintro (hb | (⟨f', g, hf, hg, hgap⟩ | hs))
                · exact Or.inl (Or.inl hb)
                · subst hf
                  subst hg
                  exact Or.inl (Or.inr hgap)
                · exact Or.inr hs
          | str s' =>
              have hstep : detectStep (m, b) e = (m, b) := by
                simp [detectStep, he, hal]
              rw [hstep, ih, specFrom_cons_found hal]
              simp [he]
      · rcases hal : alookup (stripQuotes e.1) m with _ | c
        · have hstep : detectStep (m, b) e = (m ++ [(stripQuotes e.1, Cell.str s)], b) := by
            simp [detectStep, he, hal]
          rw [hstep, ih, specFrom_cons_notfound hal, he]
        · have hstep : detectStep (m, b) e = (m, b) := by
            simp [detectStep, he, hal]
          rw [hstep, ih, specFrom_cons_found hal]
          simp [he]

/-- The detection loop decides exactly the declarative duplicate-k anomaly. -/
theorem detect_duplicate_k_iff (header : List String) (data : List Cell) :
    detect_duplicate_k header data = true ↔ DupAnomalySpec (header.zip data) := by
  rw [detect_duplicate_k, detect_foldl_iff]
  simp only [Bool.false_eq_true, false_or]
  exact Iff.rfl

/-! ### Lookup behaviour of the k-column dict -/

theorem alookup_map_replace (k : String) (v : Cell) (n : String)
    (m : List (String × Cell)) :
    alookup n (m.map fun p => if p.1 = k then (k, v) else p) =
      if k = n then (alookup n m).map fun _ => v else alookup n m := by
  induction m with
  | nil => by_cases h : k = n <;> simp [alookup, h]
  | cons e rest ih =>
      by_cases hen : e.1 = n
      · by_cases hek : e.1 = k
        · have hkn : k = n := hek ▸ hen
          simp [alookup, hek, hen, hkn]
        · have hkn : k ≠ n := fun h => hek (hen.trans h.symm)
          simp [alookup, hek, hen, hkn, Ne.symm hkn]
      · by_cases hek : e.1 = k
        · have hkn : k ≠ n := fun h => hen (hek.trans h)
          simp [alookup, hek, hen, hkn, ih]
        · simp [alookup, hek, hen, ih]

theorem alookup_dictInsert (m : List (String × Cell)) (k : String) (v : Cell)
    (n : String) :
    alookup n (dictInsert m k v) = if k = n then some v else alookup n m := by
  unfold dictInsert
  cases hp : alookup k m with
  | some c =>
      simp only [hp, Option.isSome_some, if_true]
      rw [alookup_map_replace]
      by_cases hkn : k = n
      · subst hkn
        simp [hp]
      · simp [hkn]
  | none =>
      simp only [hp, Option.isSome_none, Bool.false_eq_true, if_false]
      rw [alookup_append]
      by_cases hkn : k = n
      · subst hkn
        simp [hp, alookup]
      · cases hq : alookup n m <;> simp [hq, alookup, hkn]

theorem alookup_addK_foldl (name : String) (l : List (String × Cell)) :
    ∀ m : List (String × Cell),
      alookup name (List.foldl (fun mm e => dictInsert mm (stripQuotes e.1) e.2) m l) =
        match lastDupValue name l with
        | some v => some v
        | none => alookup name m := by
  induction l with
  | nil => intro m; simp [lastDupValue]
  | cons e rest ih =>
      intro m
      rw [List.foldl_cons, ih]
      cases hl : lastDupValue name rest with
      | some v => simp [lastDupValue, hl]
      | none =>
          by_cases hs : stripQuotes e.1 = name
          · simp [lastDupValue, hl, hs, alookup_dictInsert]
          · simp [lastDupValue, hl, hs, alookup_dictInsert]

/-- The value the k-column dict holds for each name is the value of the last
header/data pair carrying that quote-stripped name. -/
theorem alookup_addKColumns (header : List String) (data : List Cell)
    (name : String) :
    alookup name (addKColumns header data) = lastDupValue name (header.zip data) := by
  rw [addKColumns, alookup_addK_foldl]
  cases h : lastDupValue name (header.zip data) <;> simp [alookup]

/-! ### Truncation behaviour of the header/data pairing -/

theorem zip_take_length (header : List String) :
    ∀ data : List Cell, (header.take data.length).zip data = header.zip data := by
  induction header with
  | nil => intro data; simp
  | cons h hs ih =>
      intro data
      cases data with
      | nil => simp
      | cons d ds => simp [List.take_succ_cons, List.zip_cons_cons, ih ds]

/-! ### The backend/timestamp set and its collapse -/

theorem mem_insertOnce (xs : List String) (x y : String) :
    y ∈ insertOnce xs x ↔ y ∈ xs ∨ y = x := by
  unfold insertOnce
  by_cases h : x ∈ xs
  · simp only [if_pos h]
    constructor
    · exact Or.inl
    · rintro (hy | rfl)
      · exact hy
      · exact h
  · simp [h]

theorem mem_foldl_insertOnce (l : List String) :
    ∀ (acc : List String) (x : String),
      x ∈ List.foldl insertOnce acc l ↔ x ∈ acc ∨ x ∈ l := by
  induction l with
  | nil => simp
  | cons a rest ih =>
      intro acc x
      rw [List.foldl_cons, ih, mem_insertOnce]
      simp only [List.mem_cons]
      tauto

theorem foldl_insertOnce_const (b : String) (l : List String) :
    (∀ x ∈ l, x = b) → List.foldl insertOnce [b] l = [b] := by
  induction l with
  | nil => intro _; rfl
  | cons a rest ih =>
      intro hall
      have ha : a = b := hall a (List.mem_cons_self a rest)
      subst ha
      rw [List.foldl_cons]
      have hins : insertOnce [a] a = [a] := by simp [insertOnce]
      rw [hins]
      exact ih fun x hx => hall x (List.mem_cons_of_mem a hx)

theorem distinctVals_eq_singleton_iff (l : List String) (b : String) :
    distinctVals l = [b] ↔ b ∈ l ∧ ∀ x ∈ l, x = b := by
  constructor
  · intro h
    have hmem : ∀ x, x ∈ distinctVals l ↔ x ∈ l := by
      intro x
      rw [distinctVals, mem_foldl_insertOnce]
      simp
    refine ⟨(hmem b).mp ?_, fun x hx => ?_⟩
    · rw [h]
      exact List.mem_singleton_self b
    · have := (hmem x).mpr hx
      rw [h] at this
      exact List.mem_singleton.mp this
  · rintro ⟨hb, hall⟩
    cases l with
    | nil => cases hb
    | cons a rest =>
        have ha : a = b := hall a (List.mem_cons_self a rest)
        subst ha
        rw [distinctVals, List.foldl_cons]
        have hins : insertOnce [] a = [a] := by simp [insertOnce]
        rw [hins]
        exact foldl_insertOnce_const a rest fun x hx => hall x (List.mem_cons_of_mem a hx)

theorem collapseSingleton_eq_some (l : List String) (b : String) :
    collapseSingleton l = some b ↔ l = [b] := by
  match l with
  | [] => simp [collapseSingleton]
  | [x] => simp [collapseSingleton]
  | x :: y :: rest => simp [collapseSingleton]

/-! ### Claim C1 -/

/-- C1, refuted: for the header `["k=2", "k=2"]` with data `["0.8", "0.9"]`
the value retained for column `k=2` in the resulting record is the later
occurrence's `0.9`, not the first-seen `0.8`: later duplicates do overwrite. -/
theorem C1_counterexample :
    alookup "k=2" ((process_scores_file "out_x" none none
        (mkScoreInput (some 2)
          (some (["k=2", "k=2"], [[Cell.num (4/5), Cell.num (9/10)]])))).2.kColumns)
      = some (Cell.num (9/10)) ∧ (9/10 : ℚ) ≠ 4/5 := by
  constructor
  · simp [process_scores_file, metricRecordOf, mkScoreInput, addKColumns, dictInsert,
      stripQuotes, alookup]
  · norm_num

/-- C1 (amended): the first-seen value of a duplicated column is retained only
inside the anomaly-detection dict; in the resulting MetricRecord each
quote-stripped column name holds the value of its **last** occurrence among
the header/data pairs. -/
theorem C1_amended (sd : String) (b t : Option String) (f : ScoreFileInput)
    (header : List String) (data : List Cell) (rows : List (List Cell))
    (name : String) (hc : f.content = some (header, data :: rows)) :
    alookup name ((process_scores_file sd b t f).2.kColumns)
      = lastDupValue name (header.zip data) := by
  simp [process_scores_file, metricRecordOf, hc, alookup_addKColumns]

/-- C1 (amended), instantiated: on a concrete duplicated header the record
holds the last occurrence's value. -/
theorem C1_amended_witness :
    alookup "k=2" ((process_scores_file "out_x" none none
        (mkScoreInput none
          (some (["k=2", "k=2"], [[Cell.num (1/2), Cell.num (3/4)]])))).2.kColumns)
      = lastDupValue "k=2" (["k=2", "k=2"].zip [Cell.num (1/2), Cell.num (3/4)]) ∧
    lastDupValue "k=2" (["k=2", "k=2"].zip [Cell.num (1/2), Cell.num (3/4)])
      = some (Cell.num (3/4)) := by
  constructor
  · exact C1_amended "out_x" none none _ _ _ _ "k=2" rfl
  · simp [lastDupValue, stripQuotes]

/-! ### Claim C2 -/

/-- C2, refuted: an empty score file with a known `true_k = 2` yields a record
with no `k=` columns — so no `k=2` column is present — and yet
`missing_true_k_score` is `false`, where the claim demands `true`. -/
theorem C2_counterexample :
    (process_scores_file "out_x" none none
        (mkScoreInput (some 2) none)).2.missing_true_k_score = false ∧
    (process_scores_file "out_x" none none
        (mkScoreInput (some 2) none)).2.kColumns = [] ∧
    (process_scores_file "out_x" none none
        (mkScoreInput (some 2) none)).2.true_k = some 2 := by
  exact ⟨rfl, rfl, rfl⟩

/-- C2 (amended): for score files with a header and at least one data row, the
derived score is the record's value of column `k=<true_k>` when `true_k` is
known and the column is present (`missing_true_k_score = false`); a known
`true_k` with no such column gives score `None` and
`missing_true_k_score = true`; an unknown `true_k` gives score `None` and
`missing_true_k_score = false`.  For empty or row-less content the score is
`None` and `missing_true_k_score` stays `false`. -/
theorem C2_amended (sd : String) (b t : Option String) (f : ScoreFileInput) :
    (∀ header data rows, f.content = some (header, data :: rows) →
      (∀ (n : Nat) (v : Cell), f.true_k = some n →
          alookup ("k=" ++ toString n) ((process_scores_file sd b t f).2.kColumns)
            = some v →
          (process_scores_file sd b t f).2.score = some v ∧
          (process_scores_file sd b t f).2.missing_true_k_score = false) ∧
      (∀ n : Nat, f.true_k = some n →
          alookup ("k=" ++ toString n) ((process_scores_file sd b t f).2.kColumns)
            = none →
          (process_scores_file sd b t f).2.score = none ∧
          (process_scores_file sd b t f).2.missing_true_k_score = true) ∧
      (f.true_k = none →
          (process_scores_file sd b t f).2.score = none ∧
          (process_scores_file sd b t f).2.missing_true_k_score = false)) ∧
    ((f.content = none ∨ ∃ hd, f.content = some (hd, [])) →
        (process_scores_file sd b t f).2.score = none ∧
        (process_scores_file sd b t f).2.missing_true_k_score = false) := by
  constructor
  · intro header data rows hc
    refine ⟨?_, ?_, ?_⟩
    · intro n v hn hv
      have hv' : alookup ("k=" ++ toString n) (addKColumns header data) = some v := by
        simpa [process_scores_file, metricRecordOf, hc] using hv
      simp [process_scores_file, metricRecordOf, hc, hn, hv']
    · intro n hn hv
      have hv' : alookup ("k=" ++ toString n) (addKColumns header data) = none := by
        simpa [process_scores_file, metricRecordOf, hc] using hv
      simp [process_scores_file, metricRecordOf, hc, hn, hv']
    · intro hn
      simp [process_scores_file, metricRecordOf, hc, hn]
  · rintro (h | ⟨hd, h⟩) <;> simp [process_scores_file, metricRecordOf, emptyMetricRecord, h]

/-- C2 (amended), instantiated: header `["k=2", "k=3"]`, data `["0.8", "0.9"]`
and `true_k = 2` give score `0.8` with `missing_true_k_score = false`. -/
theorem C2_amended_witness :
    (process_scores_file "out_x" none none
        (mkScoreInput (some 2)
          (some (["k=2", "k=3"], [[Cell.num (4/5), Cell.num (9/10)]])))).2.score
      = some (Cell.num (4/5)) ∧
    (process_scores_file "out_x" none none
        (mkScoreInput (some 2)
          (some (["k=2", "k=3"], [[Cell.num (4/5), Cell.num (9/10)]])))).2.missing_true_k_score
      = false :=
  ((C2_amended "out_x" none none _).1 _ _ _ rfl).1 2 (Cell.num (4/5)) rfl
    (by
      have hk : ("k=" ++ toString 2 : String) = "k=2" := rfl
      simp [hk, process_scores_file, metricRecordOf, mkScoreInput, addKColumns,
        dictInsert, stripQuotes, alookup])

/-! ### Claim C3 -/

/-- C3, refuted: for a score file two levels below a directory named
`method-kmeans` that also carries a sidecar declaring `method = "spectral"`,
the resolver returns the sidecar's value, although the directory name encodes
`kmeans`: the sidecar is consulted before the directory name, not after. -/
theorem C3_counterexample :
    extract_method_info methodSearchDepth
        [⟨"metric-ari", none⟩, ⟨"method-kmeans", some ⟨"spectral", none⟩⟩]
      = ("spectral", none) ∧
    methodFromDirName "method-kmeans" (parentNameOf []) = some ("kmeans", none) ∧
    ("spectral" : String) ≠ "kmeans" := by
  refine ⟨by decide, by decide, by decide⟩

/-- C3 (amended): the resolver ascends level by level (at most 5 levels); at
each level the sidecar descriptor is consulted **before** the level's
directory name — a loaded sidecar with a non-empty method wins outright — and
only a fully unmatched level causes the ascent to continue, so a lower-level
directory-name match still beats a sidecar found higher up. -/
theorem C3_amended :
    (∀ (fuel : Nat) (lvl : DirLevel) (rest : List DirLevel) (p : SidecarParams),
        lvl.params = some p → p.method ≠ "" →
        extract_method_info (fuel + 1) (lvl :: rest)
          = (normalize_method_name p.method, p.seed)) ∧
    (∀ (fuel : Nat) (lvl : DirLevel) (rest : List DirLevel) (r : String × Option Int),
        (lvl.params = none ∨ ∃ p, lvl.params = some p ∧ p.method = "") →
        methodFromDirName lvl.name (parentNameOf rest) = some r →
        extract_method_info (fuel + 1) (lvl :: rest) = r) ∧
    (∀ (fuel : Nat) (lvl : DirLevel) (rest : List DirLevel),
        (lvl.params = none ∨ ∃ p, lvl.params = some p ∧ p.method = "") →
        methodFromDirName lvl.name (parentNameOf rest) = none →
        extract_method_info (fuel + 1) (lvl :: rest) = extract_method_info fuel rest) := by
  refine ⟨?_, ?_, ?_⟩
  · intro fuel lvl rest p hp hm
    simp [extract_method_info, hp, hm]
  · intro fuel lvl rest r hp hr
    rcases hp with hp | ⟨p, hp, hm⟩
    · simp [extract_method_info, hp, hr]
    · simp [extract_method_info, hp, hm, hr]
  · intro fuel lvl rest hp hr
    rcases hp with hp | ⟨p, hp, hm⟩
    · simp [extract_method_info, hp, hr]
    · simp [extract_method_info, hp, hm, hr]

/-- C3 (amended), instantiated: a level with both a sidecar method and a
`method-` name resolves to the sidecar's method. -/
theorem C3_amended_witness :
    extract_method_info (4 + 1) [⟨"method-kmeans", some ⟨"spectral", none⟩⟩]
      = (normalize_method_name "spectral", none) :=
  C3_amended.1 4 ⟨"method-kmeans", some ⟨"spectral", none⟩⟩ [] ⟨"spectral", none⟩
    rfl (by decide)

/-! ### Claim C4 -/

/-- C4: for a score file with a header and at least one data row (and header
names that do not collide with the fixed meta keys of the record dict),
`duplicate_k_anomaly` is `true` iff some quote-stripped column name occurs
more than once with a later numeric value differing from the (numeric)
first-seen value of that name by more than `1e-3`. -/
theorem C4 (sd : String) (b t : Option String) (f : ScoreFileInput)
    (header : List String) (data : List Cell) (rows : List (List Cell))
    (hc : f.content = some (header, data :: rows))
    (hmeta : headerAvoidsMetaKeys header = true) :
    (process_scores_file sd b t f).2.duplicate_k_anomaly = true ↔
      DupAnomalySpec (header.zip data) := by
  have : (process_scores_file sd b t f).2.duplicate_k_anomaly
      = detect_duplicate_k header data := by
    simp [process_scores_file, metricRecordOf, hc]
  rw [this]
  exact detect_duplicate_k_iff header data

/-- C4, instantiated: duplicated `k=2` with values `0.8` and `0.9` (difference
`0.1 > 1e-3`) raises the flag. -/
theorem C4_witness :
    (process_scores_file "out_x" none none
        (mkScoreInput none
          (some (["k=2", "k=2"], [[Cell.num (4/5), Cell.num (9/10)]])))).2.duplicate_k_anomaly
      = true :=
  (C4 "out_x" none none _ _ _ _ rfl (by decide)).mpr
    ⟨[("k=2", Cell.num (4/5))], ("k=2", Cell.num (9/10)), [], rfl, 4/5, 9/10,
      by simp [firstCellFor, stripQuotes], rfl, by norm_num [kTol, abs]⟩

/-! ### Claim C5 -/

/-- C5, refuted: a dataset whose only label file parses to `[0]` has zero
distinct non-zero labels and noise present, so the claim demands
`(true_k, has_noise) = (0, true)`; the resolver instead skips the file (its
`true_k` is not positive) and returns `(None, None)`. -/
theorem C5_counterexample :
    extract_dataset_true_k_and_noise (some [some [(0 : Int)]]) = (none, none) ∧
    ((([(0 : Int)]).dedup.filter fun x => decide (x ≠ 0)).length = 0) ∧
    (0 : Int) ∈ [(0 : Int)] := by
  refine ⟨by decide, by decide, by decide⟩

/-- C5 (amended): the resolver returns, from the first label file that parses
and has a positive number of distinct non-zero labels, that count as `true_k`
and `has_noise` iff label `0` occurs; unparsable files **and files whose
distinct non-zero count is zero** are skipped alike; when no file qualifies or
no dataset directory is found it returns `(None, None)`. -/
theorem C5_amended :
    (∀ (labels : List Int) (rest : List (Option (List Int))) (k : Nat) (hn : Bool),
        label_file_result labels = some (k, hn) →
        extract_true_k_noise (some labels :: rest) = (some k, some hn)) ∧
    (∀ (labels : List Int) (rest : List (Option (List Int))),
        label_file_result labels = none →
        extract_true_k_noise (some labels :: rest) = extract_true_k_noise rest) ∧
    (∀ rest : List (Option (List Int)),
        extract_true_k_noise (none :: rest) = extract_true_k_noise rest) ∧
    extract_true_k_noise [] = (none, none) ∧
    (∀ (labels : List Int) (k : Nat) (hn : Bool),
        label_file_result labels = some (k, hn) →
        k = (labels.dedup.filter fun x => decide (x ≠ 0)).length ∧
        (hn = true ↔ (0 : Int) ∈ labels) ∧ 0 < k) ∧
    (∀ labels : List Int,
        label_file_result labels = none ↔
          (labels.dedup.filter fun x => decide (x ≠ 0)).length = 0) ∧
    extract_dataset_true_k_and_noise none = (none, none) := by
  refine ⟨?_, ?_, ?_, rfl, ?_, ?_, rfl⟩
  · intro labels rest k hn h
    simp [extract_true_k_noise, h]
  · intro labels rest h
    simp [extract_true_k_noise, h]
  · intro rest
    simp [extract_true_k_noise]
  · intro labels k hn h
    simp only [label_file_result] at h
    by_cases hpos : (labels.dedup.filter fun x => decide (x ≠ 0)).length > 0
    · rw [if_pos hpos] at h
      simp only [Option.some.injEq, Prod.mk.injEq] at h
      obtain ⟨hk, hhn⟩ := h
      subst hk
      subst hhn
      refine ⟨rfl, ?_, hpos⟩
      simp [List.mem_dedup]
    · rw [if_neg hpos] at h
      cases h
  · intro labels
    simp only [label_file_result]
    split_ifs with hpos
    · constructor
      · intro h
        exact absurd h (by simp)
      · intro h
        omega
    · constructor
      · intro _
        omega
      · intro _
        rfl

/-- C5 (amended), instantiated on the spec's two examples: labels
`[1,1,2,2,1,2,1,2]` give `(2, false)` and `[1,1,2,0,1,2,0,2]` give
`(2, true)`. -/
theorem C5_amended_witness :
    extract_true_k_noise [some [1, 1, 2, 2, 1, 2, 1, 2]] = (some 2, some false) ∧
    extract_true_k_noise [some [1, 1, 2, 0, 1, 2, 0, 2]] = (some 2, some true) := by
  constructor
  · exact C5_amended.1 [1, 1, 2, 2, 1, 2, 1, 2] [] 2 false (by decide)
  · exact C5_amended.1 [1, 1, 2, 0, 1, 2, 0, 2] [] 2 true (by decide)

/-! ### Claim C6 -/

/-- C6: empty or whitespace-only content, or a header with zero data rows,
yields a metric record with `empty_file = true`, no score, no `k=` columns and
`duplicate_k_anomaly = false`, while the method-level record is still
produced (it is built before the content is read). -/
theorem C6 (sd : String) (b t : Option String) (f : ScoreFileInput)
    (h : f.content = none ∨ ∃ hd, f.content = some (hd, [])) :
    (process_scores_file sd b t f).2.empty_file = true ∧
    (process_scores_file sd b t f).2.score = none ∧
    (process_scores_file sd b t f).2.kColumns = [] ∧
    (process_scores_file sd b t f).2.duplicate_k_anomaly = false ∧
    (process_scores_file sd b t f).1 = methodResultOf sd b t f := by
  rcases h with h | ⟨hd, h⟩ <;>
    simp [process_scores_file, metricRecordOf, emptyMetricRecord, h]

/-- C6, instantiated on an empty compressed file with known `true_k = 2`. -/
theorem C6_witness :
    (process_scores_file "out_x" none none
        (mkScoreInput (some 2) none)).2.empty_file = true ∧
    (process_scores_file "out_x" none none
        (mkScoreInput (some 2) none)).2.score = none ∧
    (process_scores_file "out_x" none none
        (mkScoreInput (some 2) none)).2.kColumns = [] ∧
    (process_scores_file "out_x" none none
        (mkScoreInput (some 2) none)).2.duplicate_k_anomaly = false ∧
    (process_scores_file "out_x" none none (mkScoreInput (some 2) none)).1
      = methodResultOf "out_x" none none (mkScoreInput (some 2) none) :=
  C6 "out_x" none none (mkScoreInput (some 2) none) (Or.inl rfl)

/-! ### Claim C7 -/

/-- C7: three score files of one run directory sharing the same
(dataset, method, seed) identity — e.g. under three metric directories —
produce, after aggregation, exactly one method-level record (the first-seen
one; deduplication keys on the identity tuple plus run metadata) and exactly
three metric-level records (no deduplication at that level). -/
theorem C7 (rd : RunDirInput) (f1 f2 f3 : ScoreFileInput)
    (hf : rd.files = [f1, f2, f3])
    (hg2 : f2.dataset_generator = f1.dataset_generator)
    (hn2 : f2.dataset_name = f1.dataset_name)
    (hm2 : f2.method = f1.method) (hs2 : f2.seed = f1.seed)
    (hg3 : f3.dataset_generator = f1.dataset_generator)
    (hn3 : f3.dataset_name = f1.dataset_name)
    (hm3 : f3.method = f1.method) (hs3 : f3.seed = f1.seed) :
    (aggregate_results (process_run [rd]).1 (process_run [rd]).2.1).1
      = [(process_scores_file rd.name (extract_backend_timestamp rd.name).1
            (extract_backend_timestamp rd.name).2 f1).1] ∧
    (aggregate_results (process_run [rd]).1 (process_run [rd]).2.1).2.length = 3 := by
  constructor
  · simp [process_run, aggregate_results, dedup_method_results, hf,
      process_scores_file, methodResultOf, methodKey,
      hg2, hn2, hm2, hs2, hg3, hn3, hm3, hs3]
  · simp [process_run, aggregate_results, hf]

/-- C7, instantiated: one run directory, one identity, three metrics. -/
theorem C7_witness :
    (aggregate_results
        (process_run [⟨"out_conda_1",
          [mkScoreInput none none,
           { mkScoreInput none none with metric := "mi" },
           { mkScoreInput none none with metric := "nmi" }]⟩]).1
        (process_run [⟨"out_conda_1",
          [mkScoreInput none none,
           { mkScoreInput none none with metric := "mi" },
           { mkScoreInput none none with metric := "nmi" }]⟩]).2.1).1
      = [(process_scores_file "out_conda_1"
            (extract_backend_timestamp "out_conda_1").1
            (extract_backend_timestamp "out_conda_1").2 (mkScoreInput none none)).1] ∧
    (aggregate_results
        (process_run [⟨"out_conda_1",
          [mkScoreInput none none,
           { mkScoreInput none none with metric := "mi" },
           { mkScoreInput none none with metric := "nmi" }]⟩]).1
        (process_run [⟨"out_conda_1",
          [mkScoreInput none none,
           { mkScoreInput none none with metric := "mi" },
           { mkScoreInput none none with metric := "nmi" }]⟩]).2.1).2.length = 3 :=
  C7 _ _ _ _ rfl rfl rfl rfl rfl rfl rfl rfl rfl

/-! ### Claim C8 -/

/-- C8, refuted: with run directories `out_conda_123` and `out_nobackend`
(both matching the `out_`/`out-` discovery rule), the second yields no
backend, so not every run directory yielded the same backend — yet the batch
backend collapses to `conda` instead of the unknown value the claim
demands. -/
theorem C8_counterexample :
    (process_run [⟨"out_conda_123", []⟩, ⟨"out_nobackend", []⟩]).2.2.1
      = some "conda" ∧
    (extract_backend_timestamp "out_nobackend").1 = none ∧
    strStarts "out_" "out_nobackend" = true := by
  refine ⟨by decide, by decide, by decide⟩

/-- C8 (amended): the batch backend (resp. timestamp) is `some bk` iff at
least one run directory yielded `bk` and every run directory that yielded a
backend (directories yielding none are ignored) yielded exactly `bk`;
independently, every produced record carries the backend and timestamp
extracted from its own run directory (`source_dir`). -/
theorem C8_amended (runDirs : List RunDirInput) :
    (∀ bk : String,
        (process_run runDirs).2.2.1 = some bk ↔
          ((∃ rd ∈ runDirs, (extract_backend_timestamp rd.name).1 = some bk) ∧
           ∀ rd ∈ runDirs, ∀ b',
             (extract_backend_timestamp rd.name).1 = some b' → b' = bk)) ∧
    (∀ ts : String,
        (process_run runDirs).2.2.2 = some ts ↔
          ((∃ rd ∈ runDirs, (extract_backend_timestamp rd.name).2 = some ts) ∧
           ∀ rd ∈ runDirs, ∀ t',
             (extract_backend_timestamp rd.name).2 = some t' → t' = ts)) ∧
    (∀ m ∈ (process_run runDirs).1,
        m.backend = (extract_backend_timestamp m.source_dir).1 ∧
        m.run_timestamp = (extract_backend_timestamp m.source_dir).2) ∧
    (∀ r ∈ (process_run runDirs).2.1,
        r.backend = (extract_backend_timestamp r.source_dir).1 ∧
        r.run_timestamp = (extract_backend_timestamp r.source_dir).2) := by
  refine ⟨?_, ?_, ?_, ?_⟩
  · intro bk
    rw [show (process_run runDirs).2.2.1
        = collapseSingleton (distinctVals
            (runDirs.filterMap fun rd => (extract_backend_timestamp rd.name).1))
      from rfl]
    rw [collapseSingleton_eq_some, distinctVals_eq_singleton_iff]
    constructor
    · rintro ⟨hmem, hall⟩
      obtain ⟨rd, hrd, hex⟩ := List.mem_filterMap.mp hmem
      refine ⟨⟨rd, hrd, hex⟩, ?_⟩
      intro rd' hrd' b' hex'
      exact hall b' (List.mem_filterMap.mpr ⟨rd', hrd', hex'⟩)
    · rintro ⟨⟨rd, hrd, hex⟩, hall⟩
      refine ⟨List.mem_filterMap.mpr ⟨rd, hrd, hex⟩, ?_⟩
      intro x hx
      obtain ⟨rd', hrd', hex'⟩ := List.mem_filterMap.mp hx
      exact hall rd' hrd' x hex'
  · intro ts
    rw [show (process_run runDirs).2.2.2
        = collapseSingleton (distinctVals
            (runDirs.filterMap fun rd => (extract_backend_timestamp rd.name).2))
      from rfl]
    rw [collapseSingleton_eq_some, distinctVals_eq_singleton_iff]
    constructor
    · rintro ⟨hmem, hall⟩
      obtain ⟨rd, hrd, hex⟩ := List.mem_filterMap.mp hmem
      refine ⟨⟨rd, hrd, hex⟩, ?_⟩
      intro rd' hrd' t' hex'
      exact hall t' (List.mem_filterMap.mpr ⟨rd', hrd', hex'⟩)
    · rintro ⟨⟨rd, hrd, hex⟩, hall⟩
      refine ⟨List.mem_filterMap.mpr ⟨rd, hrd, hex⟩, ?_⟩
      intro x hx
      obtain ⟨rd', hrd', hex'⟩ := List.mem_filterMap.mp hx
      exact hall rd' hrd' x hex'
  · intro m hm
    simp only [process_run] at hm
    obtain ⟨l, hl, hml⟩ := List.mem_flatten.mp hm
    obtain ⟨rd, hrd, rfl⟩ := List.mem_map.mp hl
    obtain ⟨f, hf, rfl⟩ := List.mem_map.mp hml
    simp [process_scores_file, methodResultOf]
  · intro r hr
    simp only [process_run] at hr
    obtain ⟨l, hl, hrl⟩ := List.mem_flatten.mp hr
    obtain ⟨rd, hrd, rfl⟩ := List.mem_map.mp hl
    obtain ⟨f, hf, rfl⟩ := List.mem_map.mp hrl
    rcases hcont : f.content with - | ⟨hd, rows⟩
    · simp [process_scores_file, metricRecordOf, emptyMetricRecord, hcont]
    · cases rows with
      | nil => simp [process_scores_file, metricRecordOf, emptyMetricRecord, hcont]
      | cons d ds => simp [process_scores_file, metricRecordOf, hcont]

/-- C8 (amended), instantiated: a single run directory `out_conda_123`
collapses to backend `conda`, with agreement among all yielding
directories. -/
theorem C8_amended_witness :
    (∃ rd ∈ [(⟨"out_conda_123", []⟩ : RunDirInput)],
        (extract_backend_timestamp rd.name).1 = some "conda") ∧
    ∀ rd ∈ [(⟨"out_conda_123", []⟩ : RunDirInput)], ∀ b',
        (extract_backend_timestamp rd.name).1 = some b' → b' = "conda" :=
  ((C8_amended [⟨"out_conda_123", []⟩]).1 "conda").mp (by decide)

/-! ### Claim C9 -/

/-- C9 (implicit): the duplicate-k flag can only be raised by a duplicate pair
in which both the first-seen value of the name and the later value parse as
floats — a raised flag always exhibits such a numeric pair. -/
theorem C9 (sd : String) (b t : Option String) (f : ScoreFileInput)
    (header : List String) (data : List Cell) (rows : List (List Cell))
    (hc : f.content = some (header, data :: rows))
    (hmeta : headerAvoidsMetaKeys header = true)
    (hflag : (process_scores_file sd b t f).2.duplicate_k_anomaly = true) :
    ∃ l₁ e l₂, header.zip data = l₁ ++ e :: l₂ ∧ ∃ q r : ℚ,
      firstCellFor (stripQuotes e.1) l₁ = some (Cell.num q) ∧ e.2 = Cell.num r := by
  have hd : detect_duplicate_k header data = true := by
    simpa [process_scores_file, metricRecordOf, hc] using hflag
  obtain ⟨l₁, e, l₂, heq, q, r, h1, h2, h3⟩ := (detect_duplicate_k_iff header data).mp hd
  exact ⟨l₁, e, l₂, heq, q, r, h1, h2⟩

/-- C9, instantiated: the flag raised on duplicated numeric `k=2` columns
exhibits a numeric duplicate pair. -/
theorem C9_witness :
    ∃ l₁ e l₂,
      (["k=2", "k=2"].zip [Cell.num (4/5), Cell.num (9/10)]) = l₁ ++ e :: l₂ ∧
      ∃ q r : ℚ,
        firstCellFor (stripQuotes e.1) l₁ = some (Cell.num q) ∧ e.2 = Cell.num r :=
  C9 "out_x" none none
    (mkScoreInput none (some (["k=2", "k=2"], [[Cell.num (4/5), Cell.num (9/10)]])))
    _ _ _ rfl (by decide)
    (by
      simp [process_scores_file, metricRecordOf, mkScoreInput, detect_duplicate_k,
        detectStep, stripQuotes, alookup, kTol, abs]
      norm_num)

/-! ### Claim C10 -/

/-- C10 (implicit): only the first data row of a score file is used — any
further rows are discarded — and header columns whose index is at least the
length of that row are ignored entirely (they contribute no `k=` column and
take no part in anomaly detection): the produced record pair is unchanged
when the extra rows are replaced and the header is truncated to the first
row's length. -/
theorem C10 (sd : String) (b t : Option String) (f : ScoreFileInput)
    (header : List String) (d1 : List Cell) (r1 r2 : List (List Cell)) :
    process_scores_file sd b t (withContent f (some (header, d1 :: r1)))
      = process_scores_file sd b t
          (withContent f (some (header.take d1.length, d1 :: r2))) := by
  simp [process_scores_file, methodResultOf, metricRecordOf, withContent,
    detect_duplicate_k, addKColumns, zip_take_length]

end Clustbench
